import Mathlib

set_option maxRecDepth 8000

/-!
Shallow embedding of the rentRide backend booking core
(src/home/models.py and src/home/views.py).

Modelling conventions:

* Timestamps are whole seconds (Int) on a global timeline; Django
  DateTimeField values are timezone aware datetimes, modelled here at
  second resolution.  Awareness of the two endpoints is passed as two
  Booleans where it matters, because Booking.save rejects naive
  datetimes before anything else happens.
* Python Decimal values are modelled by the kernel computable type
  `Decimal` below, an exact rational in canonical form.  The source
  performs every arithmetic operation under the default Decimal
  context, which rounds each result to 28 significant digits with
  ROUND_HALF_EVEN; ctx28 below applies exactly that rounding, and
  ctxAdd, ctxMul and ctxDiv mirror the context operations value for
  value.  Construction from an int or a whole valued float is exact
  in Python and stays exact here.
* quantize(Decimal("0.01")) in the source uses the default Decimal
  rounding mode, which is ROUND_HALF_EVEN; roundHalfEven below
  implements that mode.
-/

/-- Fueled Euclidean algorithm; the fuel makes it reduce inside the
kernel.  decGcdAux fuel a b computes gcd a b whenever fuel > b. -/
def decGcdAux : Nat → Nat → Nat → Nat
  | 0, a, _ => a
  | fuel + 1, a, b => if b = 0 then a else decGcdAux fuel b (a % b)

/-- Greatest common divisor with enough fuel to finish. -/
def decGcd (a b : Nat) : Nat := decGcdAux (b + 1) a b

/-- An exact rational number in canonical form (reduced fraction,
positive denominator), standing in for Python Decimal values.  All
operations below normalize, so structural equality is value
equality. -/
structure Decimal where
  num : Int
  den : Nat
  deriving DecidableEq

/-- Build a canonical Decimal from a numerator and denominator. -/
def Decimal.normalize (n : Int) (d : Nat) : Decimal :=
  let g := decGcd n.natAbs d
  if g = 0 then ⟨0, 1⟩ else ⟨n / (g : Int), d / g⟩

def Decimal.ofInt (n : Int) : Decimal := ⟨n, 1⟩

instance (n : Nat) : OfNat Decimal n := ⟨⟨(n : Int), 1⟩⟩

def Decimal.add (a b : Decimal) : Decimal :=
  Decimal.normalize (a.num * (b.den : Int) + b.num * (a.den : Int)) (a.den * b.den)

def Decimal.sub (a b : Decimal) : Decimal :=
  Decimal.normalize (a.num * (b.den : Int) - b.num * (a.den : Int)) (a.den * b.den)

def Decimal.mul (a b : Decimal) : Decimal :=
  Decimal.normalize (a.num * b.num) (a.den * b.den)

/-- Exact division; division by zero yields zero (it is never used on
a zero divisor in this development). -/
def Decimal.div (a b : Decimal) : Decimal :=
  if b.num = 0 then ⟨0, 1⟩
  else Decimal.normalize (a.num * (b.den : Int) * (if b.num < 0 then -1 else 1))
    (a.den * b.num.natAbs)

instance : Add Decimal := ⟨Decimal.add⟩
instance : Sub Decimal := ⟨Decimal.sub⟩
instance : Mul Decimal := ⟨Decimal.mul⟩
instance : Div Decimal := ⟨Decimal.div⟩

/-- Strict comparison of exact rationals as a Boolean. -/
def Decimal.blt (a b : Decimal) : Bool := a.num * (b.den : Int) < b.num * (a.den : Int)

/-- Floor of an exact rational, by integer floor division. -/
def Decimal.floor (a : Decimal) : Int := Int.fdiv a.num (a.den : Int)

example : (⟨1, 3⟩ + ⟨1, 6⟩ : Decimal) = ⟨1, 2⟩ := by decide
example : (⟨7, 2⟩ * ⟨2, 7⟩ : Decimal) = 1 := by decide
example : ((1 : Decimal) / ⟨-2, 1⟩) = ⟨-1, 2⟩ := by decide
example : Decimal.floor ⟨-1, 2⟩ = -1 := by decide
example : ((10800 : Decimal) / 3600 / 24) = ⟨1, 8⟩ := by decide

/-- Round an exact rational to the nearest integer, ties going to the
even neighbour.  This is Decimal ROUND_HALF_EVEN, the default rounding
of the Decimal context used by models.py. -/
def roundHalfEven (q : Decimal) : Int :=
  let f := q.floor
  let r := q - Decimal.ofInt f
  if r.blt ⟨1, 2⟩ then f
  else if Decimal.blt ⟨1, 2⟩ r then f + 1
  else if f % 2 = 0 then f else f + 1

/-- Round an exact rational to the nearest integer, ties going away
from zero.  This is Decimal ROUND_HALF_UP, the mode named by the
spec. -/
def roundHalfUp (q : Decimal) : Int :=
  if q.blt 0 then - Decimal.floor ((0 - q) + ⟨1, 2⟩)
  else Decimal.floor (q + ⟨1, 2⟩)

example : roundHalfEven ⟨25, 2⟩ = 12 := by decide
example : roundHalfEven ⟨27, 2⟩ = 14 := by decide
example : roundHalfEven ⟨-25, 2⟩ = -12 := by decide
example : roundHalfEven ⟨121, 10⟩ = 12 := by decide
example : roundHalfUp ⟨25, 2⟩ = 13 := by decide
example : roundHalfUp ⟨-25, 2⟩ = -13 := by decide

/-- Number of decimal digits of a natural number (1 for 0); the fuel
makes the recursion reduce inside the kernel. -/
def numDigitsAux : Nat → Nat → Nat
  | 0, _ => 1
  | fuel + 1, n => if n < 10 then 1 else numDigitsAux fuel (n / 10) + 1

def numDigits (n : Nat) : Nat := numDigitsAux n n

/-- The adjusted exponent of a nonzero value: the unique E with
10 ^ E <= |x| < 10 ^ (E + 1). -/
def Decimal.adjExp (x : Decimal) : Int :=
  let a := x.num.natAbs
  let d := x.den
  let k : Int := (numDigits a : Int) - (numDigits d : Int)
  if (if k ≥ 0 then d * 10 ^ k.toNat ≤ a else d ≤ a * 10 ^ (-k).toNat) then k else k - 1

example : Decimal.adjExp ⟨5, 18⟩ = -1 := by decide
example : Decimal.adjExp ⟨99, 10⟩ = 0 := by decide
example : Decimal.adjExp ⟨100, 10⟩ = 1 := by decide
example : Decimal.adjExp ⟨-1, 1000⟩ = -3 := by decide

/-- The rounding of the default Decimal context: the exact value of
an operation result, rounded to 28 significant decimal digits with
ties to the even neighbour.  Values already representable in at most
28 significant digits pass through unchanged, exactly as in the
decimal specification, where rounding applies only when the exact
coefficient exceeds the precision. -/
def ctx28 (x : Decimal) : Decimal :=
  if x.num = 0 then ⟨0, 1⟩
  else
    let shift : Int := 27 - x.adjExp
    if shift ≥ 0 then
      Decimal.normalize (roundHalfEven (x.mul ⟨(10 ^ shift.toNat : Nat), 1⟩)) (10 ^ shift.toNat)
    else
      ⟨roundHalfEven (x.mul ⟨1, 10 ^ (-shift).toNat⟩) * ((10 : Int) ^ (-shift).toNat), 1⟩

/-- Addition under the default Decimal context. -/
def Decimal.ctxAdd (a b : Decimal) : Decimal := ctx28 (a.add b)

/-- Multiplication under the default Decimal context. -/
def Decimal.ctxMul (a b : Decimal) : Decimal := ctx28 (a.mul b)

/-- Division under the default Decimal context. -/
def Decimal.ctxDiv (a b : Decimal) : Decimal := ctx28 (a.div b)

example : Decimal.ctxDiv ⟨1000, 1⟩ ⟨3600, 1⟩
    = Decimal.normalize 2777777777777777777777777778 (10 ^ 28) := by decide
example : Decimal.ctxMul (Decimal.ctxDiv ⟨1000, 1⟩ ⟨3600, 1⟩) ⟨261, 100⟩
    = Decimal.normalize 7250000000000000000000000001 (10 ^ 28) := by decide
example : Decimal.ctxDiv ⟨3600, 1⟩ ⟨3600, 1⟩ = ⟨1, 1⟩ := by decide
example : Decimal.ctxDiv ⟨3, 1⟩ ⟨24, 1⟩ = ⟨1, 8⟩ := by decide
example : Decimal.ctxAdd ⟨-1, 2⟩ ⟨1, 4⟩ = ⟨-1, 4⟩ := by decide
example : ctx28 ⟨10 ^ 30 + 1, 1⟩ = ⟨10 ^ 30, 1⟩ := by decide

/-- x.quantize(Decimal("0.01")) under the default ROUND_HALF_EVEN. -/
def quantize2 (q : Decimal) : Decimal := Decimal.ofInt (roundHalfEven (q * 100)) / 100

/-- Two decimal quantization under ROUND_HALF_UP (used only by the
definition that follows the wording of the spec). -/
def quantize2up (q : Decimal) : Decimal := Decimal.ofInt (roundHalfUp (q * 100)) / 100

/-- models.py line 104-106: Booking.duration_hours, that is
Decimal(delta.total_seconds()) / Decimal(3600): exact construction,
then context division. -/
def duration_hours (startAt endAt : Int) : Decimal :=
  Decimal.ctxDiv (Decimal.ofInt (endAt - startAt)) 3600

/-- models.py line 108-119: Booking.calculate_total.  The method
branches on pricing_unit: hourly, daily, and everything else falls
through to the weekly formula.  Every product, quotient and sum is a
context operation; quantize is value exact on any value the context
can hold. -/
def calculate_total (startAt endAt : Int) (unit : String)
    (hourly_rate daily_rate weekly_rate delivery_fee : Decimal) : Decimal :=
  let hours := duration_hours startAt endAt
  if unit = "hourly" then
    let base := quantize2 (Decimal.ctxMul hours hourly_rate)
    quantize2 (Decimal.ctxAdd base delivery_fee)
  else if unit = "daily" then
    let days := quantize2 (Decimal.ctxDiv hours 24)
    let base := quantize2 (Decimal.ctxMul days daily_rate)
    quantize2 (Decimal.ctxAdd base delivery_fee)
  else
    let weeks := quantize2 (Decimal.ctxDiv hours (Decimal.ofInt (24 * 7)))
    let base := quantize2 (Decimal.ctxMul weeks weekly_rate)
    quantize2 (Decimal.ctxAdd base delivery_fee)

/-- Error kinds of the spec (section 7). -/
inductive BookingError where
  | invalidWindow
  | naiveTimestamp
  | unknownPricingUnit
  | overlapConflict
  | alreadyTerminal
  | notFound
  deriving DecidableEq

instance {ε α : Type} [DecidableEq ε] [DecidableEq α] : DecidableEq (Except ε α)
  | .error a, .error b =>
    if h : a = b then .isTrue (by rw [h]) else .isFalse (fun hc => by cases hc; exact h rfl)
  | .error _, .ok _ => .isFalse (fun hc => by cases hc)
  | .ok _, .error _ => .isFalse (fun hc => by cases hc)
  | .ok a, .ok b =>
    if h : a = b then .isTrue (by rw [h]) else .isFalse (fun hc => by cases hc; exact h rfl)

/-- The three valid pricing units (Booking.UNIT_CHOICES). -/
def validUnit (unit : String) : Prop :=
  unit = "hourly" ∨ unit = "daily" ∨ unit = "weekly"

instance (unit : String) : Decidable (validUnit unit) := by
  unfold validUnit; infer_instance

/-- The pricing pipeline of the persisted path, assembled from the
source: Booking.save first rejects naive datetimes (models.py line
122-123), then full_clean validates pricing_unit against UNIT_CHOICES
(Django choices validation of the CharField) and runs Booking.clean,
which rejects start_at >= end_at (models.py line 100-102), and finally
Booking.calculate_total produces the price (models.py line 130). -/
def compute_total (startAt endAt : Int) (startAware endAware : Bool)
    (unit : String) (hourly_rate daily_rate weekly_rate delivery_fee : Decimal) :
    Except BookingError Decimal :=
  if startAware = false ∨ endAware = false then .error .naiveTimestamp
  else if ¬ validUnit unit then .error .unknownPricingUnit
  else if endAt ≤ startAt then .error .invalidWindow
  else .ok (calculate_total startAt endAt unit
    hourly_rate daily_rate weekly_rate delivery_fee)

/-- Modelled from the wording of spec section 4.1 and of claim C1:
exact decimal arithmetic throughout (the plain rational operations),
with the stated ROUND_HALF_UP at every step: duration_hours =
seconds / 3600, then the per-unit conversion and the unit times rate
product each rounded to two decimals half-up, finally
base + delivery_fee rounded half-up. -/
def spec_total_halfup (startAt endAt : Int) (unit : String)
    (hourly_rate daily_rate weekly_rate delivery_fee : Decimal) :
    Except BookingError Decimal :=
  if endAt ≤ startAt then .error .invalidWindow
  else
    let hours := Decimal.ofInt (endAt - startAt) / 3600
    if unit = "hourly" then
      let base := quantize2up (hours * hourly_rate)
      .ok (quantize2up (base + delivery_fee))
    else if unit = "daily" then
      let days := quantize2up (hours / 24)
      let base := quantize2up (days * daily_rate)
      .ok (quantize2up (base + delivery_fee))
    else if unit = "weekly" then
      let weeks := quantize2up (hours / 168)
      let base := quantize2up (weeks * weekly_rate)
      .ok (quantize2up (base + delivery_fee))
    else .error .unknownPricingUnit

/-- The spec section 4.1 algorithm still in exact decimal arithmetic
but with ROUND_HALF_EVEN at every two decimal rounding step.  Kept as
a comparison target: even with the rounding mode corrected, the
exact-arithmetic reading of the claim diverges from the code, which
rounds every operation to the 28 digit context. -/
def spec_total_halfeven (startAt endAt : Int) (unit : String)
    (hourly_rate daily_rate weekly_rate delivery_fee : Decimal) :
    Except BookingError Decimal :=
  if endAt ≤ startAt then .error .invalidWindow
  else
    let hours := Decimal.ofInt (endAt - startAt) / 3600
    if unit = "hourly" then
      let base := quantize2 (hours * hourly_rate)
      .ok (quantize2 (base + delivery_fee))
    else if unit = "daily" then
      let days := quantize2 (hours / 24)
      let base := quantize2 (days * daily_rate)
      .ok (quantize2 (base + delivery_fee))
    else if unit = "weekly" then
      let weeks := quantize2 (hours / 168)
      let base := quantize2 (weeks * weekly_rate)
      .ok (quantize2 (base + delivery_fee))
    else .error .unknownPricingUnit

/-- The spec section 4.1 algorithm amended to match the code: the
same step order, but every arithmetic operation carried out in the
default Decimal context (each result rounded to 28 significant
digits, half-even) and every two decimal rounding step done with
ROUND_HALF_EVEN.  The comparison target of the amended claim C1. -/
def spec_total_ctx_halfeven (startAt endAt : Int) (unit : String)
    (hourly_rate daily_rate weekly_rate delivery_fee : Decimal) :
    Except BookingError Decimal :=
  if endAt ≤ startAt then .error .invalidWindow
  else
    let hours := Decimal.ctxDiv (Decimal.ofInt (endAt - startAt)) 3600
    if unit = "hourly" then
      let base := quantize2 (Decimal.ctxMul hours hourly_rate)
      .ok (quantize2 (Decimal.ctxAdd base delivery_fee))
    else if unit = "daily" then
      let days := quantize2 (Decimal.ctxDiv hours 24)
      let base := quantize2 (Decimal.ctxMul days daily_rate)
      .ok (quantize2 (Decimal.ctxAdd base delivery_fee))
    else if unit = "weekly" then
      let weeks := quantize2 (Decimal.ctxDiv hours 168)
      let base := quantize2 (Decimal.ctxMul weeks weekly_rate)
      .ok (quantize2 (Decimal.ctxAdd base delivery_fee))
    else .error .unknownPricingUnit

/-- Booking status values (Booking.STATUS_CHOICES). -/
inductive BStatus where
  | pending
  | confirmed
  | cancelled
  deriving DecidableEq

/-- The rate card slice of the Vehicle model (models.py line 57-60). -/
structure VehicleR where
  vid : Nat
  hourly_rate : Decimal
  daily_rate : Decimal
  weekly_rate : Decimal
  delivery_fee : Decimal
  deriving DecidableEq

/-- The booking row (models.py line 87-98): primary key, generated
human readable identifier, vehicle reference, window, pricing unit,
delivery fee, computed total and status. -/
structure BookingR where
  bid : Nat
  booking_id : String
  vehicleId : Nat
  startAt : Int
  endAt : Int
  pricing_unit : String
  delivery_fee : Decimal
  total_price : Decimal
  status : BStatus
  deriving DecidableEq

/-- The persistent store: all vehicles and bookings, plus the next
fresh primary key for bookings. -/
structure Store where
  vehicles : List VehicleR
  bookings : List BookingR
  nextId : Nat
  deriving DecidableEq

def findVehicle (σ : Store) (vid : Nat) : Option VehicleR :=
  σ.vehicles.find? (fun v => v.vid == vid)

def findBooking (σ : Store) (bid : Nat) : Option BookingR :=
  σ.bookings.find? (fun b => b.bid == bid)

/-- Replace every booking row carrying the given primary key. -/
def replaceBooking (σ : Store) (bid : Nat) (b' : BookingR) : Store :=
  { σ with bookings := σ.bookings.map (fun x => if x.bid == bid then b' else x) }

/-- Active statuses, as the source filters them:
status__in=[STATUS_PENDING, STATUS_CONFIRMED]. -/
def activeStatus (s : BStatus) : Bool :=
  s == BStatus.pending || s == BStatus.confirmed

/-- views.py line 239-244 (BookingViewSet.perform_create) and line
172-176 (VehicleViewSet.availability): a conflict exists when some
booking of the vehicle with active status satisfies
start_at < proposed_end and end_at > proposed_start. -/
def has_conflict (vid : Nat) (startAt endAt : Int) (bookings : List BookingR) : Bool :=
  bookings.any (fun b =>
    b.vehicleId == vid && activeStatus b.status &&
    decide (b.startAt < endAt) && decide (b.endAt > startAt))

/-- A timestamp broken into calendar components, for strftime. -/
structure DateTimeUTC where
  year : Nat
  month : Nat
  day : Nat
  hour : Nat
  minute : Nat
  second : Nat
  deriving DecidableEq

def digitChar (d : Nat) : Char := Char.ofNat (48 + d % 10)

/-- Zero padded two digit decimal rendering (for components < 100). -/
def pad2 (n : Nat) : String := ⟨[digitChar (n / 10), digitChar n]⟩

/-- Zero padded four digit decimal rendering (for components < 10000). -/
def pad4 (n : Nat) : String :=
  ⟨[digitChar (n / 1000), digitChar (n / 100), digitChar (n / 10), digitChar n]⟩

/-- now.strftime("%Y%m%d%H%M%S") from models.py line 126, for
in-range calendar components. -/
def strftimeYmdHMS (t : DateTimeUTC) : String :=
  pad4 t.year ++ pad2 t.month ++ pad2 t.day ++ pad2 t.hour ++ pad2 t.minute ++ pad2 t.second

/-- string.ascii_uppercase + string.digits, the alphabet sampled by
random.choices in models.py line 127. -/
def idAlphabet : List Char :=
  ['A', 'B', 'C', 'D', 'E', 'F', 'G', 'H', 'I', 'J', 'K', 'L', 'M',
   'N', 'O', 'P', 'Q', 'R', 'S', 'T', 'U', 'V', 'W', 'X', 'Y', 'Z',
   '0', '1', '2', '3', '4', '5', '6', '7', '8', '9']

def idChar (i : Fin 36) : Char :=
  idAlphabet.get ⟨i.val, by simp [idAlphabet]⟩

/-- The random suffix: the sampled indices rendered over the
alphabet. -/
def randSuffix (rand : List (Fin 36)) : String := ⟨rand.map idChar⟩

/-- models.py line 125-128: the generated booking identifier.  The
randomness of random.choices is modelled by passing the sampled
indices in. -/
def generate_id (now : DateTimeUTC) (rand : List (Fin 36)) : String :=
  "BK" ++ strftimeYmdHMS now ++ randSuffix rand

example : generate_id ⟨2024, 3, 7, 15, 4, 59⟩ [0, 25, 26, 35, 9] = "BK20240307150459AZ09J" := by
  decide

/-- models.py line 124-128: the identifier is generated only when
booking_id is still blank (Python falsiness of the empty string). -/
def fillId (b : BookingR) (now : DateTimeUTC) (rand : List (Fin 36)) : BookingR :=
  if b.booking_id = "" then { b with booking_id := generate_id now rand } else b

/-- models.py line 121-131: Booking.save.  The naive datetime check
is vacuous here because stored timestamps are modelled as aware;
booking_id is generated only when still blank; full_clean validates
the pricing unit against UNIT_CHOICES and runs clean (start before
end); the total is recomputed from the current vehicle rate card on
every save. -/
def booking_save (σ : Store) (b : BookingR) (now : DateTimeUTC) (rand : List (Fin 36)) :
    Except BookingError BookingR :=
  let b1 := fillId b now rand
  if ¬ validUnit b1.pricing_unit then .error .unknownPricingUnit
  else if b1.endAt ≤ b1.startAt then .error .invalidWindow
  else
    match findVehicle σ b1.vehicleId with
    | none => .error .notFound
    | some v => .ok { b1 with
        total_price := calculate_total b1.startAt b1.endAt b1.pricing_unit
          v.hourly_rate v.daily_rate v.weekly_rate b1.delivery_fee }

/-- The operations of the booking store.  Booking operations follow
views.py; setRates models an owner editing the vehicle rate card
through the vehicle endpoint.  now and rand feed the identifier
generation inside Booking.save. -/
inductive Op where
  | createBooking (vehicleId : Nat) (startAt endAt : Int) (unit : String)
      (fee : Option Decimal) (now : DateTimeUTC) (rand : List (Fin 36))
  | approve (bid : Nat) (now : DateTimeUTC) (rand : List (Fin 36))
  | reject (bid : Nat) (now : DateTimeUTC) (rand : List (Fin 36))
  | cancel (bid : Nat) (now : DateTimeUTC) (rand : List (Fin 36))
  | webhook (bid : Nat) (statusValue : String) (now : DateTimeUTC) (rand : List (Fin 36))
  | updateBooking (bid : Nat) (startAt endAt : Int) (now : DateTimeUTC) (rand : List (Fin 36))
  | setRates (vehicleId : Nat) (hourly daily weekly fee : Decimal)

/-- One request against the store; errors leave the store unchanged
(the caller of step discards them).

createBooking: views.py line 231-251 (BookingViewSet.perform_create).
The serializer resolves the vehicle and validates the pricing unit
choice, the delivery fee defaults to the vehicle fee, the overlap
check runs before the insert, and Booking.save persists the row in
status pending.

approve / reject: views.py line 295-307 (OwnerBookingViewSet): the
status is overwritten unconditionally and the booking saved.

cancel: views.py line 269-276 (BookingViewSet.cancel): an already
cancelled booking is refused, otherwise the status becomes cancelled.

webhook: views.py line 330-361 (PaymentWebhookView.post): an unknown
booking is a 404; a success status confirms the booking, anything
else records the payment and leaves the booking untouched.

updateBooking: the stock ModelViewSet update path: the new window is
written and Booking.save runs, with no overlap check.

setRates: writes a new rate card on the vehicle. -/
def exec (σ : Store) : Op → Except BookingError Store
  | .createBooking vid s e unit fee now rand =>
    match findVehicle σ vid with
    | none => .error .notFound
    | some v =>
      if ¬ validUnit unit then .error .unknownPricingUnit
      else if has_conflict vid s e σ.bookings then .error .overlapConflict
      else
        match booking_save σ
          { bid := σ.nextId, booking_id := "", vehicleId := vid, startAt := s, endAt := e,
            pricing_unit := unit, delivery_fee := fee.getD v.delivery_fee,
            total_price := 0, status := .pending } now rand with
        | .error err => .error err
        | .ok b' => .ok { σ with bookings := σ.bookings ++ [b'], nextId := σ.nextId + 1 }
  | .approve bid now rand =>
    match findBooking σ bid with
    | none => .error .notFound
    | some b =>
      match booking_save σ { b with status := .confirmed } now rand with
      | .error err => .error err
      | .ok b' => .ok (replaceBooking σ bid b')
  | .reject bid now rand =>
    match findBooking σ bid with
    | none => .error .notFound
    | some b =>
      match booking_save σ { b with status := .cancelled } now rand with
      | .error err => .error err
      | .ok b' => .ok (replaceBooking σ bid b')
  | .cancel bid now rand =>
    match findBooking σ bid with
    | none => .error .notFound
    | some b =>
      if b.status = .cancelled then .error .alreadyTerminal
      else
        match booking_save σ { b with status := .cancelled } now rand with
        | .error err => .error err
        | .ok b' => .ok (replaceBooking σ bid b')
  | .webhook bid statusValue now rand =>
    match findBooking σ bid with
    | none => .error .notFound
    | some b =>
      if statusValue = "success" then
        match booking_save σ { b with status := .confirmed } now rand with
        | .error err => .error err
        | .ok b' => .ok (replaceBooking σ bid b')
      else .ok σ
  | .updateBooking bid s e now rand =>
    match findBooking σ bid with
    | none => .error .notFound
    | some b =>
      match booking_save σ { b with startAt := s, endAt := e } now rand with
      | .error err => .error err
      | .ok b' => .ok (replaceBooking σ bid b')
  | .setRates vid hr dr wr dfee =>
    .ok { σ with vehicles := σ.vehicles.map (fun v =>
      if v.vid == vid then
        { v with hourly_rate := hr, daily_rate := dr, weekly_rate := wr, delivery_fee := dfee }
      else v) }

/-- Failed requests leave the store as it was. -/
def step (σ : Store) (op : Op) : Store :=
  match exec σ op with
  | .ok σ' => σ'
  | .error _ => σ

def run (σ : Store) (ops : List Op) : Store := ops.foldl step σ

/-- A store holding some vehicles and no bookings yet. -/
def initStore (vs : List VehicleR) : Store := ⟨vs, [], 0⟩

/-- A booking counts against availability while pending or
confirmed. -/
def bactive (b : BookingR) : Prop := b.status = .pending ∨ b.status = .confirmed

instance (b : BookingR) : Decidable (bactive b) := by
  unfold bactive; infer_instance

/-- The data model invariant of spec section 3: active bookings of
one vehicle are pairwise non overlapping under half open interval
semantics. -/
def conflictFree (bs : List BookingR) : Prop :=
  ∀ a ∈ bs, ∀ b ∈ bs, a.bid ≠ b.bid → a.vehicleId = b.vehicleId →
    bactive a → bactive b → ¬ (a.startAt < b.endAt ∧ b.startAt < a.endAt)

instance (bs : List BookingR) : Decidable (conflictFree bs) := by
  unfold conflictFree; infer_instance

example :
    (run (initStore [⟨1, 100, 1000, 5000, 0⟩])
      [.createBooking 1 0 3600 "hourly" none ⟨2024, 1, 1, 0, 0, 0⟩ [0, 0, 0, 0, 0]]).bookings
    = [{ bid := 0, booking_id := "BK20240101000000AAAAA", vehicleId := 1, startAt := 0,
         endAt := 3600, pricing_unit := "hourly", delivery_fee := 0, total_price := 100,
         status := .pending }] := by decide

@[simp] theorem fillId_bid (b : BookingR) (now : DateTimeUTC) (rand : List (Fin 36)) :
    (fillId b now rand).bid = b.bid := by
  unfold fillId; split <;> rfl

@[simp] theorem fillId_vehicleId (b : BookingR) (now : DateTimeUTC) (rand : List (Fin 36)) :
    (fillId b now rand).vehicleId = b.vehicleId := by
  unfold fillId; split <;> rfl

@[simp] theorem fillId_startAt (b : BookingR) (now : DateTimeUTC) (rand : List (Fin 36)) :
    (fillId b now rand).startAt = b.startAt := by
  unfold fillId; split <;> rfl

@[simp] theorem fillId_endAt (b : BookingR) (now : DateTimeUTC) (rand : List (Fin 36)) :
    (fillId b now rand).endAt = b.endAt := by
  unfold fillId; split <;> rfl

@[simp] theorem fillId_pricing_unit (b : BookingR) (now : DateTimeUTC) (rand : List (Fin 36)) :
    (fillId b now rand).pricing_unit = b.pricing_unit := by
  unfold fillId; split <;> rfl

@[simp] theorem fillId_delivery_fee (b : BookingR) (now : DateTimeUTC) (rand : List (Fin 36)) :
    (fillId b now rand).delivery_fee = b.delivery_fee := by
  unfold fillId; split <;> rfl

@[simp] theorem fillId_status (b : BookingR) (now : DateTimeUTC) (rand : List (Fin 36)) :
    (fillId b now rand).status = b.status := by
  unfold fillId; split <;> rfl

theorem fillId_booking_id (b : BookingR) (now : DateTimeUTC) (rand : List (Fin 36))
    (h : ¬ b.booking_id = "") : (fillId b now rand).booking_id = b.booking_id := by
  unfold fillId; simp [h]

/-- Inversion and introduction for Booking.save in one step: saving
succeeds exactly when the unit is a valid choice, the window is
ordered, and the vehicle exists; the saved row is the id filled row
with the freshly computed total. -/
theorem booking_save_ok_iff (σ : Store) (b : BookingR) (now : DateTimeUTC)
    (rand : List (Fin 36)) (b' : BookingR) :
    booking_save σ b now rand = .ok b' ↔
      validUnit b.pricing_unit ∧ b.startAt < b.endAt ∧
      ∃ v, findVehicle σ b.vehicleId = some v ∧
        b' = { fillId b now rand with
          total_price := calculate_total b.startAt b.endAt b.pricing_unit
            v.hourly_rate v.daily_rate v.weekly_rate b.delivery_fee } := by
  unfold booking_save
  by_cases hu : validUnit b.pricing_unit
  · by_cases hw : b.endAt ≤ b.startAt
    · simp [hu, hw, not_lt.mpr hw]
    · cases hv : findVehicle σ b.vehicleId with
      | none => simp [hu, hw, hv]
      | some v => simp [hu, hw, hv, not_le.mp hw, eq_comm]
  · simp [hu]

theorem find?_append_first {α : Type} (p : α → Bool) (l1 l2 : List α) (a : α)
    (h : l1.find? p = some a) : (l1 ++ l2).find? p = some a := by
  rw [List.find?_append, h]; rfl

theorem find?_replace_eq (bs : List BookingR) (k : Nat) (b b' : BookingR)
    (h : bs.find? (fun x => x.bid == k) = some b) (hb' : b'.bid = k) :
    (bs.map (fun x => if x.bid == k then b' else x)).find? (fun x => x.bid == k)
      = some b' := by
  rw [List.find?_map]
  have hpf : ((fun x : BookingR => x.bid == k) ∘ (fun x => if x.bid == k then b' else x))
      = fun x : BookingR => x.bid == k := by
    funext x
    by_cases hx : (x.bid == k) = true
    · simp only [Function.comp_apply, if_pos hx, hx]
      simp [hb']
    · simp only [Function.comp_apply, if_neg hx]
  rw [hpf, h]
  have hbk := List.find?_some h
  simp at hbk
  simp [hbk]

theorem find?_replace_ne (bs : List BookingR) (k k' : Nat) (b' : BookingR)
    (hkk : ¬ k = k') (hb' : b'.bid = k') :
    (bs.map (fun x => if x.bid == k' then b' else x)).find? (fun x => x.bid == k)
      = bs.find? (fun x => x.bid == k) := by
  rw [List.find?_map]
  have hpf : ((fun x : BookingR => x.bid == k) ∘ (fun x => if x.bid == k' then b' else x))
      = fun x : BookingR => x.bid == k := by
    funext x
    by_cases hx : (x.bid == k') = true
    · have hxk : x.bid = k' := by simpa using hx
      simp only [Function.comp_apply, if_pos hx]
      simp [hb', hxk]
    · simp only [Function.comp_apply, if_neg hx]
  rw [hpf]
  cases hf : bs.find? (fun x : BookingR => x.bid == k) with
  | none => rfl
  | some y =>
    have hyk : y.bid = k := by simpa using List.find?_some hf
    have : (y.bid == k') = false := by simp [hyk]; omega
    simp [Option.map, this]

theorem mem_replace {bs : List BookingR} {k : Nat} {b' x' : BookingR}
    (hx' : x' ∈ bs.map (fun x => if x.bid == k then b' else x)) :
    x' = b' ∨ (x' ∈ bs ∧ ¬ x'.bid = k) := by
  rcases List.mem_map.mp hx' with ⟨x, hx, heq⟩
  by_cases hbid : (x.bid == k) = true
  · left; rw [if_pos hbid] at heq; exact heq.symm
  · right
    rw [if_neg hbid] at heq
    subst heq
    exact ⟨hx, by simpa using hbid⟩

theorem findBooking_bid {σ : Store} {bid : Nat} {b : BookingR}
    (h : findBooking σ bid = some b) : b.bid = bid := by
  have := List.find?_some h
  simpa using this

theorem findBooking_mem {σ : Store} {bid : Nat} {b : BookingR}
    (h : findBooking σ bid = some b) : b ∈ σ.bookings :=
  List.mem_of_find?_eq_some h

/-- views.py line 239-244 as a predicate: a conflict is an active
booking of the vehicle whose window strictly overlaps the proposed
one. -/
theorem has_conflict_iff (vid : Nat) (s e : Int) (bs : List BookingR) :
    has_conflict vid s e bs = true ↔
      ∃ b ∈ bs, b.vehicleId = vid ∧ bactive b ∧ b.startAt < e ∧ s < b.endAt := by
  unfold has_conflict activeStatus bactive
  simp [List.any_eq_true, Bool.and_eq_true, decide_eq_true_eq, beq_iff_eq,
    Bool.or_eq_true, and_assoc]

theorem step_eq_of_ok {σ : Store} {op : Op} {σ' : Store} (h : exec σ op = .ok σ') :
    step σ op = σ' := by
  simp [step, h]

theorem step_eq_of_error {σ : Store} {op : Op} {err : BookingError}
    (h : exec σ op = .error err) : step σ op = σ := by
  simp [step, h]

/-- Distinct rows never share a primary key. -/
def UniqueBids (σ : Store) : Prop :=
  ∀ a ∈ σ.bookings, ∀ b ∈ σ.bookings, a.bid = b.bid → a = b

/-- Every stored primary key is below the next fresh one. -/
def BidBound (σ : Store) : Prop := ∀ b ∈ σ.bookings, b.bid < σ.nextId

/-- The inductive store invariant: the availability invariant plus
key freshness bookkeeping. -/
def StoreInv (σ : Store) : Prop := conflictFree σ.bookings ∧ UniqueBids σ ∧ BidBound σ

/-- The booking carrying this key, if any, is not cancelled. -/
def notCancelledAt (σ : Store) (bid : Nat) : Prop :=
  match findBooking σ bid with
  | some b => ¬ b.status = .cancelled
  | none => True

instance (σ : Store) (bid : Nat) : Decidable (notCancelledAt σ bid) := by
  unfold notCancelledAt; split <;> infer_instance

/-- Operations that cannot resurrect a cancelled booking and do not
rewrite a stored window: approve and a success webhook only on a not
yet cancelled booking, and no stock update requests. -/
def safeOp (σ : Store) : Op → Prop
  | .approve bid _ _ => notCancelledAt σ bid
  | .webhook bid sv _ _ => sv = "success" → notCancelledAt σ bid
  | .updateBooking _ _ _ _ _ => False
  | _ => True

instance (σ : Store) (op : Op) : Decidable (safeOp σ op) := by
  cases op <;> (unfold safeOp; infer_instance)

/-- Every operation of the trace is safe in the store it hits. -/
def SafeTrace : Store → List Op → Prop
  | _, [] => True
  | σ, op :: ops => safeOp σ op ∧ SafeTrace (step σ op) ops

instance instDecSafeTrace : (σ : Store) → (ops : List Op) → Decidable (SafeTrace σ ops)
  | _, [] => .isTrue trivial
  | σ, op :: ops =>
    haveI : Decidable (SafeTrace (step σ op) ops) := instDecSafeTrace _ _
    inferInstanceAs (Decidable (safeOp σ op ∧ SafeTrace (step σ op) ops))

theorem conflictFree_replace {σ : Store} {bid : Nat} {b b' : BookingR}
    (hfind : findBooking σ bid = some b) (hInv : StoreInv σ)
    (hveh : b'.vehicleId = b.vehicleId)
    (hs : b'.startAt = b.startAt) (he : b'.endAt = b.endAt)
    (hact : bactive b' → bactive b) :
    conflictFree (replaceBooking σ bid b').bookings := by
  obtain ⟨hcf, huniq, _⟩ := hInv
  have hmem := findBooking_mem hfind
  have hb : b.bid = bid := findBooking_bid hfind
  intro x hx y hy hne hv hax hay hover
  rcases mem_replace hx with rfl | ⟨hxmem, hxk⟩ <;>
    rcases mem_replace hy with rfl | ⟨hymem, hyk⟩
  · exact hne rfl
  · refine hcf b hmem y hymem ?_ ?_ (hact hax) hay ?_
    · rw [hb]; exact fun hc => hyk hc.symm
    · rw [← hveh]; exact hv
    · exact ⟨by rw [← hs]; exact hover.1, by rw [← he]; exact hover.2⟩
  · refine hcf x hxmem b hmem ?_ ?_ hax (hact hay) ?_
    · intro hc; exact hxk (by rw [hc, hb])
    · rw [hveh] at hv; exact hv
    · exact ⟨by rw [← he]; exact hover.1, by rw [← hs]; exact hover.2⟩
  · exact hcf x hxmem y hymem hne hv hax hay hover

theorem uniqueBids_replace {σ : Store} {bid : Nat} {b b' : BookingR}
    (hfind : findBooking σ bid = some b) (huniq : UniqueBids σ) (hbid : b'.bid = b.bid) :
    UniqueBids (replaceBooking σ bid b') := by
  have hb : b.bid = bid := findBooking_bid hfind
  intro x hx y hy hxy
  rcases mem_replace hx with rfl | ⟨hxmem, hxk⟩ <;>
    rcases mem_replace hy with rfl | ⟨hymem, hyk⟩
  · rfl
  · exact absurd (by rw [← hxy, hbid, hb]) hyk
  · exact absurd (by rw [hxy, hbid, hb]) hxk
  · exact huniq x hxmem y hymem hxy

theorem bidBound_replace {σ : Store} {bid : Nat} {b b' : BookingR}
    (hfind : findBooking σ bid = some b) (hbound : BidBound σ) (hbid : b'.bid = b.bid) :
    BidBound (replaceBooking σ bid b') := by
  intro x hx
  rcases mem_replace hx with rfl | ⟨hxmem, _⟩
  · rw [hbid]; exact hbound b (findBooking_mem hfind)
  · exact hbound x hxmem

theorem storeInv_replace {σ : Store} {bid : Nat} {b b' : BookingR}
    (hfind : findBooking σ bid = some b) (hInv : StoreInv σ)
    (hbid : b'.bid = b.bid) (hveh : b'.vehicleId = b.vehicleId)
    (hs : b'.startAt = b.startAt) (he : b'.endAt = b.endAt)
    (hact : bactive b' → bactive b) :
    StoreInv (replaceBooking σ bid b') :=
  ⟨conflictFree_replace hfind hInv hveh hs he hact,
   uniqueBids_replace hfind hInv.2.1 hbid,
   bidBound_replace hfind hInv.2.2 hbid⟩

theorem storeInv_append {σ : Store} {nb : BookingR}
    (hInv : StoreInv σ) (hbid : nb.bid = σ.nextId)
    (hnoc : has_conflict nb.vehicleId nb.startAt nb.endAt σ.bookings = false) :
    StoreInv { σ with bookings := σ.bookings ++ [nb], nextId := σ.nextId + 1 } := by
  obtain ⟨hcf, huniq, hbound⟩ := hInv
  refine ⟨?_, ?_, ?_⟩
  · intro x hx y hy hne hv hax hay hover
    simp only [List.mem_append, List.mem_singleton] at hx hy
    rcases hx with hx | rfl <;> rcases hy with hy | rfl
    · exact hcf x hx y hy hne hv hax hay hover
    · exact absurd ((has_conflict_iff _ _ _ _).mpr ⟨x, hx, hv, hax, hover.1, hover.2⟩)
        (by simp [hnoc])
    · exact absurd ((has_conflict_iff _ _ _ _).mpr ⟨y, hy, hv.symm, hay, hover.2, hover.1⟩)
        (by simp [hnoc])
    · exact hne rfl
  · intro x hx y hy hxy
    simp only [List.mem_append, List.mem_singleton] at hx hy
    rcases hx with hx | rfl <;> rcases hy with hy | rfl
    · exact huniq x hx y hy hxy
    · exact absurd hxy (by rw [hbid]; exact Nat.ne_of_lt (hbound x hx))
    · exact absurd hxy.symm (by rw [hbid]; exact Nat.ne_of_lt (hbound y hy))
    · rfl
  · intro x hx
    simp only [List.mem_append, List.mem_singleton] at hx
    rcases hx with hx | rfl
    · exact Nat.lt_succ_of_lt (hbound x hx)
    · rw [hbid]; exact Nat.lt_succ_self _

theorem storeInv_statusSave {σ : Store} {bid : Nat} {b : BookingR} {st : BStatus}
    {b' : BookingR} {now : DateTimeUTC} {rand : List (Fin 36)}
    (hfind : findBooking σ bid = some b) (hInv : StoreInv σ)
    (hst : st = .cancelled ∨ ¬ b.status = .cancelled)
    (hsave : booking_save σ { b with status := st } now rand = .ok b') :
    StoreInv (replaceBooking σ bid b') := by
  obtain ⟨hu, hw, v, hv, rfl⟩ := (booking_save_ok_iff _ _ _ _ _).mp hsave
  refine storeInv_replace hfind hInv (by simp) (by simp) (by simp) (by simp) ?_
  intro hab'
  rcases hst with rfl | hbc
  · simp [bactive] at hab'
  · cases hsb : b.status with
    | pending => exact Or.inl hsb
    | confirmed => exact Or.inr hsb
    | cancelled => exact absurd hsb hbc

theorem booking_save_ok_bid {σ : Store} {bm : BookingR} {now : DateTimeUTC}
    {rand : List (Fin 36)} {b'' : BookingR}
    (h : booking_save σ bm now rand = .ok b'') : b''.bid = bm.bid := by
  obtain ⟨-, -, v, -, rfl⟩ := (booking_save_ok_iff _ _ _ _ _).mp h
  simp

theorem booking_save_ok_status {σ : Store} {bm : BookingR} {now : DateTimeUTC}
    {rand : List (Fin 36)} {b'' : BookingR}
    (h : booking_save σ bm now rand = .ok b'') : b''.status = bm.status := by
  obtain ⟨-, -, v, -, rfl⟩ := (booking_save_ok_iff _ _ _ _ _).mp h
  simp

theorem booking_save_ok_booking_id {σ : Store} {bm : BookingR} {now : DateTimeUTC}
    {rand : List (Fin 36)} {b'' : BookingR}
    (h : booking_save σ bm now rand = .ok b'') (hid : ¬ bm.booking_id = "") :
    b''.booking_id = bm.booking_id := by
  obtain ⟨-, -, v, -, rfl⟩ := (booking_save_ok_iff _ _ _ _ _).mp h
  show (fillId bm now rand).booking_id = bm.booking_id
  exact fillId_booking_id bm now rand hid

theorem booking_save_ok_total {σ : Store} {bm : BookingR} {now : DateTimeUTC}
    {rand : List (Fin 36)} {b'' : BookingR}
    (h : booking_save σ bm now rand = .ok b'') :
    ∃ v, findVehicle σ bm.vehicleId = some v ∧
      b''.total_price = calculate_total bm.startAt bm.endAt bm.pricing_unit
        v.hourly_rate v.daily_rate v.weekly_rate bm.delivery_fee := by
  obtain ⟨-, -, v, hv, rfl⟩ := (booking_save_ok_iff _ _ _ _ _).mp h
  exact ⟨v, hv, rfl⟩

theorem findBooking_replaceBooking_eq {σ : Store} {bid : Nat} {b b' : BookingR}
    (h : findBooking σ bid = some b) (hb' : b'.bid = bid) :
    findBooking (replaceBooking σ bid b') bid = some b' := by
  show (σ.bookings.map (fun x => if x.bid == bid then b' else x)).find?
    (fun x => x.bid == bid) = some b'
  exact find?_replace_eq σ.bookings bid b b' h hb'

theorem findBooking_replaceBooking_ne {σ : Store} {bid tbid : Nat} {b' : BookingR}
    (hne : ¬ bid = tbid) (hb' : b'.bid = tbid) :
    findBooking (replaceBooking σ tbid b') bid = findBooking σ bid := by
  show (σ.bookings.map (fun x => if x.bid == tbid then b' else x)).find?
    (fun x => x.bid == bid) = σ.bookings.find? (fun x => x.bid == bid)
  exact find?_replace_ne σ.bookings bid tbid b' hne hb'

/-- Every safe operation preserves the store invariant. -/
theorem stepInv {σ : Store} {op : Op} (hInv : StoreInv σ) (hsafe : safeOp σ op) :
    StoreInv (step σ op) := by
  cases op with
  | createBooking vid s e unit fee now rand =>
    cases hv : findVehicle σ vid with
    | none =>
      have hex : exec σ (Op.createBooking vid s e unit fee now rand) = .error .notFound := by
        simp [exec, hv]
      rw [step_eq_of_error hex]; exact hInv
    | some v =>
      by_cases hu : validUnit unit
      · cases hc : has_conflict vid s e σ.bookings with
        | true =>
          have hex : exec σ (Op.createBooking vid s e unit fee now rand)
              = .error .overlapConflict := by
            simp [exec, hv, hu, hc]
          rw [step_eq_of_error hex]; exact hInv
        | false =>
          cases hsave : booking_save σ
            { bid := σ.nextId, booking_id := "", vehicleId := vid, startAt := s, endAt := e,
              pricing_unit := unit, delivery_fee := fee.getD v.delivery_fee,
              total_price := 0, status := .pending } now rand with
          | error err =>
            have hex : exec σ (Op.createBooking vid s e unit fee now rand) = .error err := by
              simp [exec, hv, hu, hc, hsave]
            rw [step_eq_of_error hex]; exact hInv
          | ok b' =>
            have hex : exec σ (Op.createBooking vid s e unit fee now rand)
                = .ok { σ with bookings := σ.bookings ++ [b'], nextId := σ.nextId + 1 } := by
              simp [exec, hv, hu, hc, hsave]
            rw [step_eq_of_ok hex]
            obtain ⟨-, -, v', -, rfl⟩ := (booking_save_ok_iff _ _ _ _ _).mp hsave
            exact storeInv_append hInv (by simp) (by simpa using hc)
      · have hex : exec σ (Op.createBooking vid s e unit fee now rand)
            = .error .unknownPricingUnit := by
          simp [exec, hv, hu]
        rw [step_eq_of_error hex]; exact hInv
  | approve bid now rand =>
    cases hf : findBooking σ bid with
    | none =>
      have hex : exec σ (Op.approve bid now rand) = .error .notFound := by simp [exec, hf]
      rw [step_eq_of_error hex]; exact hInv
    | some b =>
      cases hsave : booking_save σ { b with status := .confirmed } now rand with
      | error err =>
        have hex : exec σ (Op.approve bid now rand) = .error err := by simp [exec, hf, hsave]
        rw [step_eq_of_error hex]; exact hInv
      | ok b' =>
        have hex : exec σ (Op.approve bid now rand) = .ok (replaceBooking σ bid b') := by
          simp [exec, hf, hsave]
        rw [step_eq_of_ok hex]
        have hbc : ¬ b.status = BStatus.cancelled := by
          simpa [safeOp, notCancelledAt, hf] using hsafe
        exact storeInv_statusSave hf hInv (Or.inr hbc) hsave
  | reject bid now rand =>
    cases hf : findBooking σ bid with
    | none =>
      have hex : exec σ (Op.reject bid now rand) = .error .notFound := by simp [exec, hf]
      rw [step_eq_of_error hex]; exact hInv
    | some b =>
      cases hsave : booking_save σ { b with status := .cancelled } now rand with
      | error err =>
        have hex : exec σ (Op.reject bid now rand) = .error err := by simp [exec, hf, hsave]
        rw [step_eq_of_error hex]; exact hInv
      | ok b' =>
        have hex : exec σ (Op.reject bid now rand) = .ok (replaceBooking σ bid b') := by
          simp [exec, hf, hsave]
        rw [step_eq_of_ok hex]
        exact storeInv_statusSave hf hInv (Or.inl rfl) hsave
  | cancel bid now rand =>
    cases hf : findBooking σ bid with
    | none =>
      have hex : exec σ (Op.cancel bid now rand) = .error .notFound := by simp [exec, hf]
      rw [step_eq_of_error hex]; exact hInv
    | some b =>
      by_cases hcl : b.status = BStatus.cancelled
      · have hex : exec σ (Op.cancel bid now rand) = .error .alreadyTerminal := by
          simp [exec, hf, hcl]
        rw [step_eq_of_error hex]; exact hInv
      · cases hsave : booking_save σ { b with status := .cancelled } now rand with
        | error err =>
          have hex : exec σ (Op.cancel bid now rand) = .error err := by
            simp [exec, hf, hcl, hsave]
          rw [step_eq_of_error hex]; exact hInv
        | ok b' =>
          have hex : exec σ (Op.cancel bid now rand) = .ok (replaceBooking σ bid b') := by
            simp [exec, hf, hcl, hsave]
          rw [step_eq_of_ok hex]
          exact storeInv_statusSave hf hInv (Or.inl rfl) hsave
  | webhook bid sv now rand =>
    cases hf : findBooking σ bid with
    | none =>
      have hex : exec σ (Op.webhook bid sv now rand) = .error .notFound := by simp [exec, hf]
      rw [step_eq_of_error hex]; exact hInv
    | some b =>
      by_cases hsv : sv = "success"
      · subst hsv
        cases hsave : booking_save σ { b with status := .confirmed } now rand with
        | error err =>
          have hex : exec σ (Op.webhook bid "success" now rand) = .error err := by
            simp [exec, hf, hsave]
          rw [step_eq_of_error hex]; exact hInv
        | ok b' =>
          have hex : exec σ (Op.webhook bid "success" now rand)
              = .ok (replaceBooking σ bid b') := by
            simp [exec, hf, hsave]
          rw [step_eq_of_ok hex]
          have hsafe' : ("success" : String) = "success" → notCancelledAt σ bid := hsafe
          have hbc : ¬ b.status = BStatus.cancelled := by
            simpa [notCancelledAt, hf] using hsafe' rfl
          exact storeInv_statusSave hf hInv (Or.inr hbc) hsave
      · have hex : exec σ (Op.webhook bid sv now rand) = .ok σ := by simp [exec, hf, hsv]
        rw [step_eq_of_ok hex]; exact hInv
  | updateBooking bid s e now rand => exact hsafe.elim
  | setRates vid hr dr wr dfee =>
    simp only [step, exec]
    exact ⟨hInv.1, hInv.2.1, hInv.2.2⟩

/-- A safe trace preserves the store invariant along the whole run. -/
theorem runInv {σ : Store} {ops : List Op} (hInv : StoreInv σ) (hst : SafeTrace σ ops) :
    StoreInv (run σ ops) := by
  induction ops generalizing σ with
  | nil => exact hInv
  | cons op ops ih => exact ih (stepInv hInv hst.1) hst.2

theorem keepId_replace {σ : Store} {tbid : Nat} {tb bm b'' : BookingR} {bid : Nat}
    {b : BookingR} {now : DateTimeUTC} {rand : List (Fin 36)}
    (hf : findBooking σ bid = some b) (hid : ¬ b.booking_id = "")
    (hf2 : findBooking σ tbid = some tb)
    (hsave : booking_save σ bm now rand = .ok b'')
    (hbm_bid : bm.bid = tb.bid) (hbm_id : bm.booking_id = tb.booking_id) :
    ∃ b', findBooking (replaceBooking σ tbid b'') bid = some b' ∧
      b'.booking_id = b.booking_id := by
  have hb''bid : b''.bid = tb.bid := by rw [booking_save_ok_bid hsave, hbm_bid]
  have htbid : tb.bid = tbid := findBooking_bid hf2
  by_cases heq : bid = tbid
  · subst heq
    have hbt : b = tb := by rw [hf] at hf2; exact Option.some.inj hf2
    have hbmid' : ¬ bm.booking_id = "" := by rw [hbm_id, ← hbt]; exact hid
    refine ⟨b'', findBooking_replaceBooking_eq hf ?_, ?_⟩
    · rw [hb''bid, ← hbt]; exact findBooking_bid hf
    · rw [booking_save_ok_booking_id hsave hbmid', hbm_id, ← hbt]
  · refine ⟨b, ?_, rfl⟩
    rw [findBooking_replaceBooking_ne heq (by rw [hb''bid, htbid])]
    exact hf

/-- No operation ever rewrites an already generated booking
identifier: the row found under a key keeps its booking_id across any
request. -/
theorem step_keeps_booking_id {σ : Store} (op : Op) {bid : Nat} {b : BookingR}
    (hf : findBooking σ bid = some b) (hid : ¬ b.booking_id = "") :
    ∃ b', findBooking (step σ op) bid = some b' ∧ b'.booking_id = b.booking_id := by
  cases op with
  | createBooking vid s e unit fee now rand =>
    cases hv : findVehicle σ vid with
    | none =>
      have hex : exec σ (Op.createBooking vid s e unit fee now rand) = .error .notFound := by
        simp [exec, hv]
      rw [step_eq_of_error hex]; exact ⟨b, hf, rfl⟩
    | some v =>
      by_cases hu : validUnit unit
      · cases hc : has_conflict vid s e σ.bookings with
        | true =>
          have hex : exec σ (Op.createBooking vid s e unit fee now rand)
              = .error .overlapConflict := by
            simp [exec, hv, hu, hc]
          rw [step_eq_of_error hex]; exact ⟨b, hf, rfl⟩
        | false =>
          cases hsave : booking_save σ
            { bid := σ.nextId, booking_id := "", vehicleId := vid, startAt := s, endAt := e,
              pricing_unit := unit, delivery_fee := fee.getD v.delivery_fee,
              total_price := 0, status := .pending } now rand with
          | error err =>
            have hex : exec σ (Op.createBooking vid s e unit fee now rand) = .error err := by
              simp [exec, hv, hu, hc, hsave]
            rw [step_eq_of_error hex]; exact ⟨b, hf, rfl⟩
          | ok b' =>
            have hex : exec σ (Op.createBooking vid s e unit fee now rand)
                = .ok { σ with bookings := σ.bookings ++ [b'], nextId := σ.nextId + 1 } := by
              simp [exec, hv, hu, hc, hsave]
            rw [step_eq_of_ok hex]
            exact ⟨b, find?_append_first _ _ _ _ hf, rfl⟩
      · have hex : exec σ (Op.createBooking vid s e unit fee now rand)
            = .error .unknownPricingUnit := by
          simp [exec, hv, hu]
        rw [step_eq_of_error hex]; exact ⟨b, hf, rfl⟩
  | approve tbid now rand =>
    cases hf2 : findBooking σ tbid with
    | none =>
      have hex : exec σ (Op.approve tbid now rand) = .error .notFound := by simp [exec, hf2]
      rw [step_eq_of_error hex]; exact ⟨b, hf, rfl⟩
    | some tb =>
      cases hsave : booking_save σ { tb with status := .confirmed } now rand with
      | error err =>
        have hex : exec σ (Op.approve tbid now rand) = .error err := by simp [exec, hf2, hsave]
        rw [step_eq_of_error hex]; exact ⟨b, hf, rfl⟩
      | ok b'' =>
        have hex : exec σ (Op.approve tbid now rand) = .ok (replaceBooking σ tbid b'') := by
          simp [exec, hf2, hsave]
        rw [step_eq_of_ok hex]
        exact keepId_replace hf hid hf2 hsave rfl rfl
  | reject tbid now rand =>
    cases hf2 : findBooking σ tbid with
    | none =>
      have hex : exec σ (Op.reject tbid now rand) = .error .notFound := by simp [exec, hf2]
      rw [step_eq_of_error hex]; exact ⟨b, hf, rfl⟩
    | some tb =>
      cases hsave : booking_save σ { tb with status := .cancelled } now rand with
      | error err =>
        have hex : exec σ (Op.reject tbid now rand) = .error err := by simp [exec, hf2, hsave]
        rw [step_eq_of_error hex]; exact ⟨b, hf, rfl⟩
      | ok b'' =>
        have hex : exec σ (Op.reject tbid now rand) = .ok (replaceBooking σ tbid b'') := by
          simp [exec, hf2, hsave]
        rw [step_eq_of_ok hex]
        exact keepId_replace hf hid hf2 hsave rfl rfl
  | cancel tbid now rand =>
    cases hf2 : findBooking σ tbid with
    | none =>
      have hex : exec σ (Op.cancel tbid now rand) = .error .notFound := by simp [exec, hf2]
      rw [step_eq_of_error hex]; exact ⟨b, hf, rfl⟩
    | some tb =>
      by_cases hcl : tb.status = BStatus.cancelled
      · have hex : exec σ (Op.cancel tbid now rand) = .error .alreadyTerminal := by
          simp [exec, hf2, hcl]
        rw [step_eq_of_error hex]; exact ⟨b, hf, rfl⟩
      · cases hsave : booking_save σ { tb with status := .cancelled } now rand with
        | error err =>
          have hex : exec σ (Op.cancel tbid now rand) = .error err := by
            simp [exec, hf2, hcl, hsave]
          rw [step_eq_of_error hex]; exact ⟨b, hf, rfl⟩
        | ok b'' =>
          have hex : exec σ (Op.cancel tbid now rand) = .ok (replaceBooking σ tbid b'') := by
            simp [exec, hf2, hcl, hsave]
          rw [step_eq_of_ok hex]
          exact keepId_replace hf hid hf2 hsave rfl rfl
  | webhook tbid sv now rand =>
    cases hf2 : findBooking σ tbid with
    | none =>
      have hex : exec σ (Op.webhook tbid sv now rand) = .error .notFound := by simp [exec, hf2]
      rw [step_eq_of_error hex]; exact ⟨b, hf, rfl⟩
    | some tb =>
      by_cases hsv : sv = "success"
      · subst hsv
        cases hsave : booking_save σ { tb with status := .confirmed } now rand with
        | error err =>
          have hex : exec σ (Op.webhook tbid "success" now rand) = .error err := by
            simp [exec, hf2, hsave]
          rw [step_eq_of_error hex]; exact ⟨b, hf, rfl⟩
        | ok b'' =>
          have hex : exec σ (Op.webhook tbid "success" now rand)
              = .ok (replaceBooking σ tbid b'') := by
            simp [exec, hf2, hsave]
          rw [step_eq_of_ok hex]
          exact keepId_replace hf hid hf2 hsave rfl rfl
      · have hex : exec σ (Op.webhook tbid sv now rand) = .ok σ := by simp [exec, hf2, hsv]
        rw [step_eq_of_ok hex]; exact ⟨b, hf, rfl⟩
  | updateBooking tbid s e now rand =>
    cases hf2 : findBooking σ tbid with
    | none =>
      have hex : exec σ (Op.updateBooking tbid s e now rand) = .error .notFound := by
        simp [exec, hf2]
      rw [step_eq_of_error hex]; exact ⟨b, hf, rfl⟩
    | some tb =>
      cases hsave : booking_save σ { tb with startAt := s, endAt := e } now rand with
      | error err =>
        have hex : exec σ (Op.updateBooking tbid s e now rand) = .error err := by
          simp [exec, hf2, hsave]
        rw [step_eq_of_error hex]; exact ⟨b, hf, rfl⟩
      | ok b'' =>
        have hex : exec σ (Op.updateBooking tbid s e now rand)
            = .ok (replaceBooking σ tbid b'') := by
          simp [exec, hf2, hsave]
        rw [step_eq_of_ok hex]
        exact keepId_replace hf hid hf2 hsave rfl rfl
  | setRates vid hr dr wr dfee =>
    simp only [step, exec]
    exact ⟨b, hf, rfl⟩

/-- Saving a found booking with only its status replaced always
succeeds when the stored row is well formed and its vehicle exists,
and it stores the freshly computed total. -/
theorem statusSave_step {σ : Store} {b : BookingR} {v : VehicleR} (st : BStatus)
    (now : DateTimeUTC) (rand : List (Fin 36))
    (hu : validUnit b.pricing_unit) (hw : b.startAt < b.endAt)
    (hv : findVehicle σ b.vehicleId = some v) :
    booking_save σ { b with status := st } now rand
      = .ok { fillId { b with status := st } now rand with
          total_price := calculate_total b.startAt b.endAt b.pricing_unit
            v.hourly_rate v.daily_rate v.weekly_rate b.delivery_fee } := by
  rw [booking_save_ok_iff]
  exact ⟨hu, hw, v, hv, rfl⟩

theorem findBooking_after_statusSave {σ : Store} {bid : Nat} {b bm b'' : BookingR}
    {now : DateTimeUTC} {rand : List (Fin 36)}
    (hf : findBooking σ bid = some b)
    (hsave : booking_save σ bm now rand = .ok b'') (hbm : bm.bid = b.bid) :
    findBooking (replaceBooking σ bid b'') bid = some b'' :=
  findBooking_replaceBooking_eq hf
    (by rw [booking_save_ok_bid hsave, hbm]; exact findBooking_bid hf)

/-- C10: compute_total on a one hour window with pricing unit hourly,
hourly rate 100 and delivery fee 0 returns exactly 100.00, and on a
24 hour window with pricing unit daily, daily rate 1000 and delivery
fee 150 returns exactly 1150.00. -/
theorem C10_compute_total_examples :
    compute_total 0 3600 true true "hourly" 100 0 0 0 = .ok 100 ∧
    compute_total 0 86400 true true "daily" 0 1000 0 150 = .ok 1150 := by
  decide

/-- C5: for every pair of aware timestamps with start at or after the
end (the equal case included) and a valid pricing unit, compute_total
fails with InvalidWindow rather than returning a price. -/
theorem C5_invalid_window (startAt endAt : Int) (unit : String)
    (hr dr wr fee : Decimal) (hu : validUnit unit) (hw : endAt ≤ startAt) :
    compute_total startAt endAt true true unit hr dr wr fee = .error .invalidWindow := by
  simp [compute_total, hu, hw]

/-- C5 witness: compute_total at start equal to end. -/
theorem C5_invalid_window_witness :
    compute_total 0 0 true true "hourly" 100 0 0 0 = .error .invalidWindow :=
  C5_invalid_window 0 0 "hourly" 100 0 0 0 (Or.inl rfl) le_rfl

/-- C4: for every input whose pricing unit is not hourly, daily or
weekly, compute_total (the persisted pricing pipeline, whose
full_clean validates the unit against UNIT_CHOICES) fails with
UnknownPricingUnit and does not return a price. -/
theorem C4_unknown_unit (startAt endAt : Int) (unit : String)
    (hr dr wr fee : Decimal) (hu : ¬ validUnit unit) :
    compute_total startAt endAt true true unit hr dr wr fee
      = .error .unknownPricingUnit := by
  simp [compute_total, hu]

/-- C4 witness: a monthly pricing unit is rejected. -/
theorem C4_unknown_unit_witness :
    compute_total 0 3600 true true "monthly" 100 0 0 0 = .error .unknownPricingUnit :=
  C4_unknown_unit 0 3600 "monthly" 100 0 0 0 (by decide)

set_option maxRecDepth 8000 in
/-- C1 counterexample, in two parts.  First, on a three hour window
priced daily at rate 100 with no delivery fee the code quantizes
0.125 days to 0.12, because Decimal quantize defaults to
ROUND_HALF_EVEN, while the claimed half-up algorithm yields 0.13 days
and a total of 13.00.  Second, on a 1000 second window priced hourly
at rate 2.61 with no fee the code returns 0.73 while the claimed
exact decimal arithmetic, even with the rounding mode corrected to
half-even, yields exactly 0.725 and a total of 0.72: the context
rounds 1000/3600 up at the 28th significant digit, and the product
0.7250000000000000000000000001 sits above the half cent midpoint. -/
theorem C1_rounding_counterexample :
    (compute_total 0 10800 true true "daily" 0 100 0 0 = .ok ⟨12, 1⟩ ∧
     spec_total_halfup 0 10800 "daily" 0 100 0 0 = .ok ⟨13, 1⟩ ∧
     compute_total 0 10800 true true "daily" 0 100 0 0
       ≠ spec_total_halfup 0 10800 "daily" 0 100 0 0) ∧
    (compute_total 0 1000 true true "hourly" ⟨261, 100⟩ 0 0 0 = .ok ⟨73, 100⟩ ∧
     spec_total_halfeven 0 1000 "hourly" ⟨261, 100⟩ 0 0 0 = .ok ⟨18, 25⟩ ∧
     compute_total 0 1000 true true "hourly" ⟨261, 100⟩ 0 0 0
       ≠ spec_total_halfeven 0 1000 "hourly" ⟨261, 100⟩ 0 0 0) := by
  decide

set_option maxRecDepth 8000 in
/-- C1 amended: for every window with start before end, aware
timestamps and a valid pricing unit, compute_total follows the spec
section 4.1 algorithm with the two deviations the code forces: every
arithmetic operation is carried out in the default Decimal context,
each result rounded to 28 significant digits half-even, instead of
exact decimal arithmetic; and every two decimal rounding step uses
ROUND_HALF_EVEN instead of half-up. -/
theorem C1_amended_halfeven (startAt endAt : Int) (unit : String)
    (hr dr wr fee : Decimal) (hw : startAt < endAt) (hu : validUnit unit) :
    compute_total startAt endAt true true unit hr dr wr fee
      = spec_total_ctx_halfeven startAt endAt unit hr dr wr fee := by
  have hnw : ¬ endAt ≤ startAt := not_le.mpr hw
  have h247 : Decimal.ofInt (24 * 7) = (168 : Decimal) := by decide
  have h168 : Decimal.ofInt 168 = (168 : Decimal) := by decide
  rcases hu with h | h | h <;> subst h <;>
    simp [compute_total, spec_total_ctx_halfeven, calculate_total, duration_hours,
      validUnit, hnw, h247, h168]

/-- C1 amended witness: a one hour window priced weekly. -/
theorem C1_amended_halfeven_witness :
    compute_total 0 3600 true true "weekly" 0 0 1000 0
      = spec_total_ctx_halfeven 0 3600 "weekly" 0 0 1000 0 :=
  C1_amended_halfeven 0 3600 "weekly" 0 0 1000 0 (by decide) (by decide)

/-- C2: over any set of active bookings of the vehicle in question,
has_conflict is true exactly when some booking satisfies the strict
half open overlap b.start < proposed_end and b.end > proposed_start;
in particular a booking ending exactly at the proposed start is never
a conflict. -/
theorem C2_has_conflict (vid : Nat) (s e : Int) (bs : List BookingR)
    (hveh : ∀ b ∈ bs, b.vehicleId = vid)
    (hact : ∀ b ∈ bs, b.status = .pending ∨ b.status = .confirmed) :
    (has_conflict vid s e bs = true ↔ ∃ b ∈ bs, b.startAt < e ∧ b.endAt > s) ∧
    (∀ b ∈ bs, b.endAt = s → ¬ (b.startAt < e ∧ b.endAt > s)) := by
  constructor
  · rw [has_conflict_iff]
    constructor
    · rintro ⟨b, hb, -, -, h1, h2⟩; exact ⟨b, hb, h1, h2⟩
    · rintro ⟨b, hb, h1, h2⟩; exact ⟨b, hb, hveh b hb, hact b hb, h1, h2⟩
  · rintro b hb hend ⟨-, h2⟩
    rw [hend] at h2
    exact lt_irrefl s h2

/-- C2 witness: one pending booking of vehicle 1 ending exactly at
the proposed start. -/
theorem C2_has_conflict_witness :
    (has_conflict 1 0 3600 [⟨0, "B", 1, -3600, 0, "hourly", 0, 0, .pending⟩] = true ↔
      ∃ b ∈ [(⟨0, "B", 1, -3600, 0, "hourly", 0, 0, .pending⟩ : BookingR)],
        b.startAt < 3600 ∧ b.endAt > 0) ∧
    (∀ b ∈ [(⟨0, "B", 1, -3600, 0, "hourly", 0, 0, .pending⟩ : BookingR)],
      b.endAt = 0 → ¬ (b.startAt < 3600 ∧ b.endAt > 0)) :=
  C2_has_conflict 1 0 3600 [⟨0, "B", 1, -3600, 0, "hourly", 0, 0, .pending⟩]
    (by decide) (by decide)

set_option maxRecDepth 8000 in
/-- C3 counterexample: starting from a store with one vehicle and no
bookings, the trace create, customer cancel, create the same window
again, owner approve the cancelled booking ends with a confirmed and
a pending booking of the same vehicle occupying the same window, so
the pairwise non overlap invariant fails in a reachable state. -/
theorem C3_counterexample :
    ¬ conflictFree (run (initStore [⟨1, 100, 1000, 5000, 0⟩])
      [.createBooking 1 0 3600 "hourly" none ⟨2024, 1, 1, 0, 0, 0⟩ [0, 0, 0, 0, 0],
       .cancel 0 ⟨2024, 1, 1, 0, 0, 0⟩ [0, 0, 0, 0, 0],
       .createBooking 1 0 3600 "hourly" none ⟨2024, 1, 1, 0, 0, 0⟩ [0, 0, 0, 0, 0],
       .approve 0 ⟨2024, 1, 1, 0, 0, 0⟩ [0, 0, 0, 0, 0]]).bookings := by
  decide

/-- C3 amended: the pairwise non overlap invariant on active bookings
does hold in every state reached from a bookingless store by traces
in which owner approval and success webhooks are never applied to a
cancelled booking and the stock booking update endpoint is not used. -/
theorem C3_amended_invariant (vs : List VehicleR) (ops : List Op)
    (hsafe : SafeTrace (initStore vs) ops) :
    conflictFree (run (initStore vs) ops).bookings := by
  have hInv : StoreInv (initStore vs) := by
    refine ⟨?_, ?_, ?_⟩
    · intro a ha; simp [initStore] at ha
    · intro a ha; simp [initStore] at ha
    · intro a ha; simp [initStore] at ha
  exact (runInv hInv hsafe).1

set_option maxRecDepth 8000 in
/-- C3 amended witness: a safe trace with a creation, a cancellation
and a second creation over the same window. -/
theorem C3_amended_invariant_witness :
    conflictFree (run (initStore [⟨1, 100, 1000, 5000, 0⟩])
      [.createBooking 1 0 3600 "hourly" none ⟨2024, 1, 1, 0, 0, 0⟩ [0, 0, 0, 0, 0],
       .cancel 0 ⟨2024, 1, 1, 0, 0, 0⟩ [0, 0, 0, 0, 0],
       .createBooking 1 0 3600 "hourly" none ⟨2024, 1, 1, 0, 0, 0⟩ [0, 0, 0, 0, 0]]).bookings :=
  C3_amended_invariant [⟨1, 100, 1000, 5000, 0⟩]
    [.createBooking 1 0 3600 "hourly" none ⟨2024, 1, 1, 0, 0, 0⟩ [0, 0, 0, 0, 0],
     .cancel 0 ⟨2024, 1, 1, 0, 0, 0⟩ [0, 0, 0, 0, 0],
     .createBooking 1 0 3600 "hourly" none ⟨2024, 1, 1, 0, 0, 0⟩ [0, 0, 0, 0, 0]]
    (by decide)

set_option maxRecDepth 8000 in
/-- C6 counterexample: a booking created at hourly rate 100 stores
total 100.00; after the owner raises the hourly rate to 200, a mere
customer cancellation re-saves the booking and silently recomputes
the stored total to 200.00, so total_price is not frozen at
creation. -/
theorem C6_counterexample :
    (findBooking (run (initStore [⟨1, 100, 1000, 5000, 0⟩])
        [.createBooking 1 0 3600 "hourly" none ⟨2024, 1, 1, 0, 0, 0⟩ [0, 0, 0, 0, 0]]) 0).map
      (fun b => b.total_price) = some 100 ∧
    (findBooking (run (initStore [⟨1, 100, 1000, 5000, 0⟩])
        [.createBooking 1 0 3600 "hourly" none ⟨2024, 1, 1, 0, 0, 0⟩ [0, 0, 0, 0, 0],
         .setRates 1 200 1000 5000 0,
         .cancel 0 ⟨2024, 1, 1, 0, 0, 0⟩ [0, 0, 0, 0, 0]]) 0).map
      (fun b => b.total_price) = some 200 := by
  decide

theorem statusSave_total_after {σ : Store} {bid : Nat} {b : BookingR} {v : VehicleR}
    {bm b'' : BookingR} {now : DateTimeUTC} {rand : List (Fin 36)}
    (hf : findBooking σ bid = some b) (hv : findVehicle σ b.vehicleId = some v)
    (hsave : booking_save σ bm now rand = .ok b'')
    (hbmbid : bm.bid = b.bid) (hbmveh : bm.vehicleId = b.vehicleId) :
    findBooking (replaceBooking σ bid b'') bid = some b'' ∧
    b''.total_price = calculate_total bm.startAt bm.endAt bm.pricing_unit
      v.hourly_rate v.daily_rate v.weekly_rate bm.delivery_fee := by
  refine ⟨findBooking_after_statusSave hf hsave hbmbid, ?_⟩
  obtain ⟨v', hv', htot⟩ := booking_save_ok_total hsave
  rw [hbmveh] at hv'
  have hvv : v' = v := Option.some.inj (hv'.symm.trans hv)
  rw [htot, hvv]

/-- C6 amended: total_price is recomputed from the current vehicle
rate card by every operation that saves the booking: customer cancel
of a not yet cancelled booking, owner approve, owner reject, a
success payment webhook, and a window update all store
calculate_total evaluated at the rates in force at that moment, so a
rate card change after creation changes the stored total at the next
saving operation. -/
theorem C6_amended_total_recomputed (σ : Store) (bid : Nat) (b : BookingR) (v : VehicleR)
    (now : DateTimeUTC) (rand : List (Fin 36))
    (hf : findBooking σ bid = some b)
    (hu : validUnit b.pricing_unit) (hw : b.startAt < b.endAt)
    (hv : findVehicle σ b.vehicleId = some v) :
    (¬ b.status = .cancelled →
      ∃ b', findBooking (step σ (.cancel bid now rand)) bid = some b' ∧
        b'.total_price = calculate_total b.startAt b.endAt b.pricing_unit
          v.hourly_rate v.daily_rate v.weekly_rate b.delivery_fee) ∧
    (∃ b', findBooking (step σ (.approve bid now rand)) bid = some b' ∧
      b'.total_price = calculate_total b.startAt b.endAt b.pricing_unit
        v.hourly_rate v.daily_rate v.weekly_rate b.delivery_fee) ∧
    (∃ b', findBooking (step σ (.reject bid now rand)) bid = some b' ∧
      b'.total_price = calculate_total b.startAt b.endAt b.pricing_unit
        v.hourly_rate v.daily_rate v.weekly_rate b.delivery_fee) ∧
    (∃ b', findBooking (step σ (.webhook bid "success" now rand)) bid = some b' ∧
      b'.total_price = calculate_total b.startAt b.endAt b.pricing_unit
        v.hourly_rate v.daily_rate v.weekly_rate b.delivery_fee) ∧
    (∀ s e : Int, s < e →
      ∃ b', findBooking (step σ (.updateBooking bid s e now rand)) bid = some b' ∧
        b'.total_price = calculate_total s e b.pricing_unit
          v.hourly_rate v.daily_rate v.weekly_rate b.delivery_fee) := by
  refine ⟨?_, ?_, ?_, ?_, ?_⟩
  · intro hnc
    obtain ⟨b'', hsave⟩ : ∃ b'', booking_save σ { b with status := BStatus.cancelled } now rand
        = .ok b'' := ⟨_, statusSave_step BStatus.cancelled now rand hu hw hv⟩
    have hex : exec σ (Op.cancel bid now rand) = .ok (replaceBooking σ bid b'') := by
      simp [exec, hf, hnc, hsave]
    rw [step_eq_of_ok hex]
    obtain ⟨hfind, htot⟩ := statusSave_total_after hf hv hsave rfl rfl
    exact ⟨b'', hfind, htot⟩
  · obtain ⟨b'', hsave⟩ : ∃ b'', booking_save σ { b with status := BStatus.confirmed } now rand
        = .ok b'' := ⟨_, statusSave_step BStatus.confirmed now rand hu hw hv⟩
    have hex : exec σ (Op.approve bid now rand) = .ok (replaceBooking σ bid b'') := by
      simp [exec, hf, hsave]
    rw [step_eq_of_ok hex]
    obtain ⟨hfind, htot⟩ := statusSave_total_after hf hv hsave rfl rfl
    exact ⟨b'', hfind, htot⟩
  · obtain ⟨b'', hsave⟩ : ∃ b'', booking_save σ { b with status := BStatus.cancelled } now rand
        = .ok b'' := ⟨_, statusSave_step BStatus.cancelled now rand hu hw hv⟩
    have hex : exec σ (Op.reject bid now rand) = .ok (replaceBooking σ bid b'') := by
      simp [exec, hf, hsave]
    rw [step_eq_of_ok hex]
    obtain ⟨hfind, htot⟩ := statusSave_total_after hf hv hsave rfl rfl
    exact ⟨b'', hfind, htot⟩
  · obtain ⟨b'', hsave⟩ : ∃ b'', booking_save σ { b with status := BStatus.confirmed } now rand
        = .ok b'' := ⟨_, statusSave_step BStatus.confirmed now rand hu hw hv⟩
    have hex : exec σ (Op.webhook bid "success" now rand) = .ok (replaceBooking σ bid b'') := by
      simp [exec, hf, hsave]
    rw [step_eq_of_ok hex]
    obtain ⟨hfind, htot⟩ := statusSave_total_after hf hv hsave rfl rfl
    exact ⟨b'', hfind, htot⟩
  · intro s e hse
    obtain ⟨b'', hsave⟩ : ∃ b'', booking_save σ { b with startAt := s, endAt := e } now rand
        = .ok b'' :=
      ⟨_, (booking_save_ok_iff _ _ _ _ _).mpr ⟨hu, hse, v, hv, rfl⟩⟩
    have hex : exec σ (Op.updateBooking bid s e now rand)
        = .ok (replaceBooking σ bid b'') := by
      simp [exec, hf, hsave]
    rw [step_eq_of_ok hex]
    obtain ⟨hfind, htot⟩ := statusSave_total_after hf hv hsave rfl rfl
    exact ⟨b'', hfind, htot⟩

/-- C6 amended witness: a concrete pending booking priced at the old
rate 100; cancel, approve, reject, the success webhook and an update
each store the price computed at the current rate 200. -/
theorem C6_amended_total_recomputed_witness :
    ((¬ BStatus.pending = BStatus.cancelled →
      ∃ b', findBooking (step
          ⟨[⟨1, 200, 1000, 5000, 0⟩], [⟨0, "BKX", 1, 0, 3600, "hourly", 0, 100, .pending⟩], 1⟩
          (.cancel 0 ⟨2024, 1, 1, 0, 0, 0⟩ [0, 0, 0, 0, 0])) 0 = some b' ∧
        b'.total_price = calculate_total 0 3600 "hourly" 200 1000 5000 0) ∧
    (∃ b', findBooking (step
        ⟨[⟨1, 200, 1000, 5000, 0⟩], [⟨0, "BKX", 1, 0, 3600, "hourly", 0, 100, .pending⟩], 1⟩
        (.approve 0 ⟨2024, 1, 1, 0, 0, 0⟩ [0, 0, 0, 0, 0])) 0 = some b' ∧
      b'.total_price = calculate_total 0 3600 "hourly" 200 1000 5000 0) ∧
    (∃ b', findBooking (step
        ⟨[⟨1, 200, 1000, 5000, 0⟩], [⟨0, "BKX", 1, 0, 3600, "hourly", 0, 100, .pending⟩], 1⟩
        (.reject 0 ⟨2024, 1, 1, 0, 0, 0⟩ [0, 0, 0, 0, 0])) 0 = some b' ∧
      b'.total_price = calculate_total 0 3600 "hourly" 200 1000 5000 0) ∧
    (∃ b', findBooking (step
        ⟨[⟨1, 200, 1000, 5000, 0⟩], [⟨0, "BKX", 1, 0, 3600, "hourly", 0, 100, .pending⟩], 1⟩
        (.webhook 0 "success" ⟨2024, 1, 1, 0, 0, 0⟩ [0, 0, 0, 0, 0])) 0 = some b' ∧
      b'.total_price = calculate_total 0 3600 "hourly" 200 1000 5000 0) ∧
    (∀ s e : Int, s < e →
      ∃ b', findBooking (step
          ⟨[⟨1, 200, 1000, 5000, 0⟩], [⟨0, "BKX", 1, 0, 3600, "hourly", 0, 100, .pending⟩], 1⟩
          (.updateBooking 0 s e ⟨2024, 1, 1, 0, 0, 0⟩ [0, 0, 0, 0, 0])) 0 = some b' ∧
        b'.total_price = calculate_total s e "hourly" 200 1000 5000 0)) :=
  C6_amended_total_recomputed
    ⟨[⟨1, 200, 1000, 5000, 0⟩], [⟨0, "BKX", 1, 0, 3600, "hourly", 0, 100, .pending⟩], 1⟩
    0 ⟨0, "BKX", 1, 0, 3600, "hourly", 0, 100, .pending⟩ ⟨1, 200, 1000, 5000, 0⟩
    ⟨2024, 1, 1, 0, 0, 0⟩ [0, 0, 0, 0, 0]
    (by decide) (by decide) (by decide) (by decide)

set_option maxRecDepth 8000 in
/-- C7 counterexample: a booking cancelled by the customer is moved
back to confirmed by a later owner approval, so the cancelled state
is not terminal under the code. -/
theorem C7_counterexample :
    (findBooking (run (initStore [⟨1, 100, 1000, 5000, 0⟩])
        [.createBooking 1 0 3600 "hourly" none ⟨2024, 1, 1, 0, 0, 0⟩ [0, 0, 0, 0, 0],
         .cancel 0 ⟨2024, 1, 1, 0, 0, 0⟩ [0, 0, 0, 0, 0]]) 0).map (fun b => b.status)
      = some .cancelled ∧
    (findBooking (run (initStore [⟨1, 100, 1000, 5000, 0⟩])
        [.createBooking 1 0 3600 "hourly" none ⟨2024, 1, 1, 0, 0, 0⟩ [0, 0, 0, 0, 0],
         .cancel 0 ⟨2024, 1, 1, 0, 0, 0⟩ [0, 0, 0, 0, 0],
         .approve 0 ⟨2024, 1, 1, 0, 0, 0⟩ [0, 0, 0, 0, 0]]) 0).map (fun b => b.status)
      = some .confirmed := by
  decide

/-- C7 amended: only the customer cancel endpoint enforces
terminality and only for the cancelled state: cancelling a cancelled
booking fails and leaves the store unchanged, while owner approve and
a success webhook set any found booking to confirmed regardless of
its current status (a cancelled booking becomes confirmed), and owner
reject sets any found booking to cancelled regardless of its current
status (a confirmed booking becomes cancelled). -/
theorem C7_amended_terminality (σ : Store) (bid : Nat) (b : BookingR) (v : VehicleR)
    (now : DateTimeUTC) (rand : List (Fin 36))
    (hf : findBooking σ bid = some b)
    (hu : validUnit b.pricing_unit) (hw : b.startAt < b.endAt)
    (hv : findVehicle σ b.vehicleId = some v) :
    (b.status = .cancelled →
      exec σ (.cancel bid now rand) = .error .alreadyTerminal ∧
      step σ (.cancel bid now rand) = σ) ∧
    (∃ b', findBooking (step σ (.approve bid now rand)) bid = some b' ∧
      b'.status = .confirmed) ∧
    (∃ b', findBooking (step σ (.reject bid now rand)) bid = some b' ∧
      b'.status = .cancelled) ∧
    (∃ b', findBooking (step σ (.webhook bid "success" now rand)) bid = some b' ∧
      b'.status = .confirmed) := by
  refine ⟨?_, ?_, ?_, ?_⟩
  · intro hcl
    have hex : exec σ (Op.cancel bid now rand) = .error .alreadyTerminal := by
      simp [exec, hf, hcl]
    exact ⟨hex, step_eq_of_error hex⟩
  · obtain ⟨b'', hsave⟩ : ∃ b'', booking_save σ { b with status := BStatus.confirmed } now rand
        = .ok b'' := ⟨_, statusSave_step BStatus.confirmed now rand hu hw hv⟩
    have hex : exec σ (Op.approve bid now rand) = .ok (replaceBooking σ bid b'') := by
      simp [exec, hf, hsave]
    rw [step_eq_of_ok hex]
    exact ⟨b'', findBooking_after_statusSave hf hsave rfl, booking_save_ok_status hsave⟩
  · obtain ⟨b'', hsave⟩ : ∃ b'', booking_save σ { b with status := BStatus.cancelled } now rand
        = .ok b'' := ⟨_, statusSave_step BStatus.cancelled now rand hu hw hv⟩
    have hex : exec σ (Op.reject bid now rand) = .ok (replaceBooking σ bid b'') := by
      simp [exec, hf, hsave]
    rw [step_eq_of_ok hex]
    exact ⟨b'', findBooking_after_statusSave hf hsave rfl, booking_save_ok_status hsave⟩
  · obtain ⟨b'', hsave⟩ : ∃ b'', booking_save σ { b with status := BStatus.confirmed } now rand
        = .ok b'' := ⟨_, statusSave_step BStatus.confirmed now rand hu hw hv⟩
    have hex : exec σ (Op.webhook bid "success" now rand) = .ok (replaceBooking σ bid b'') := by
      simp [exec, hf, hsave]
    rw [step_eq_of_ok hex]
    exact ⟨b'', findBooking_after_statusSave hf hsave rfl, booking_save_ok_status hsave⟩

/-- C7 amended witness: a cancelled booking, on which cancel fails
while approve, reject and a success webhook all rewrite the status. -/
theorem C7_amended_terminality_witness :
    ((BStatus.cancelled = BStatus.cancelled →
      exec ⟨[⟨1, 100, 1000, 5000, 0⟩], [⟨0, "BKX", 1, 0, 3600, "hourly", 0, 100, .cancelled⟩], 1⟩
          (.cancel 0 ⟨2024, 1, 1, 0, 0, 0⟩ [0, 0, 0, 0, 0])
        = .error .alreadyTerminal ∧
      step ⟨[⟨1, 100, 1000, 5000, 0⟩], [⟨0, "BKX", 1, 0, 3600, "hourly", 0, 100, .cancelled⟩], 1⟩
          (.cancel 0 ⟨2024, 1, 1, 0, 0, 0⟩ [0, 0, 0, 0, 0])
        = ⟨[⟨1, 100, 1000, 5000, 0⟩], [⟨0, "BKX", 1, 0, 3600, "hourly", 0, 100, .cancelled⟩], 1⟩) ∧
    (∃ b', findBooking (step
        ⟨[⟨1, 100, 1000, 5000, 0⟩], [⟨0, "BKX", 1, 0, 3600, "hourly", 0, 100, .cancelled⟩], 1⟩
        (.approve 0 ⟨2024, 1, 1, 0, 0, 0⟩ [0, 0, 0, 0, 0])) 0 = some b' ∧
      b'.status = .confirmed) ∧
    (∃ b', findBooking (step
        ⟨[⟨1, 100, 1000, 5000, 0⟩], [⟨0, "BKX", 1, 0, 3600, "hourly", 0, 100, .cancelled⟩], 1⟩
        (.reject 0 ⟨2024, 1, 1, 0, 0, 0⟩ [0, 0, 0, 0, 0])) 0 = some b' ∧
      b'.status = .cancelled) ∧
    (∃ b', findBooking (step
        ⟨[⟨1, 100, 1000, 5000, 0⟩], [⟨0, "BKX", 1, 0, 3600, "hourly", 0, 100, .cancelled⟩], 1⟩
        (.webhook 0 "success" ⟨2024, 1, 1, 0, 0, 0⟩ [0, 0, 0, 0, 0])) 0 = some b' ∧
      b'.status = .confirmed)) :=
  C7_amended_terminality
    ⟨[⟨1, 100, 1000, 5000, 0⟩], [⟨0, "BKX", 1, 0, 3600, "hourly", 0, 100, .cancelled⟩], 1⟩
    0 ⟨0, "BKX", 1, 0, 3600, "hourly", 0, 100, .cancelled⟩ ⟨1, 100, 1000, 5000, 0⟩
    ⟨2024, 1, 1, 0, 0, 0⟩ [0, 0, 0, 0, 0]
    (by decide) (by decide) (by decide) (by decide)

/-- C9: cancelling a booking that is already cancelled fails with
AlreadyTerminal and leaves the store unchanged; cancelling a pending
or confirmed booking succeeds and stores it with status cancelled. -/
theorem C9_cancel_transitions (σ : Store) (bid : Nat) (b : BookingR) (v : VehicleR)
    (now : DateTimeUTC) (rand : List (Fin 36))
    (hf : findBooking σ bid = some b)
    (hu : validUnit b.pricing_unit) (hw : b.startAt < b.endAt)
    (hv : findVehicle σ b.vehicleId = some v) :
    (b.status = .cancelled →
      exec σ (.cancel bid now rand) = .error .alreadyTerminal ∧
      step σ (.cancel bid now rand) = σ) ∧
    (¬ b.status = .cancelled →
      ∃ b', findBooking (step σ (.cancel bid now rand)) bid = some b' ∧
        b'.status = .cancelled) := by
  constructor
  · intro hcl
    have hex : exec σ (Op.cancel bid now rand) = .error .alreadyTerminal := by
      simp [exec, hf, hcl]
    exact ⟨hex, step_eq_of_error hex⟩
  · intro hcl
    obtain ⟨b'', hsave⟩ : ∃ b'', booking_save σ { b with status := BStatus.cancelled } now rand
        = .ok b'' := ⟨_, statusSave_step BStatus.cancelled now rand hu hw hv⟩
    have hex : exec σ (Op.cancel bid now rand) = .ok (replaceBooking σ bid b'') := by
      simp [exec, hf, hcl, hsave]
    rw [step_eq_of_ok hex]
    exact ⟨b'', findBooking_after_statusSave hf hsave rfl, booking_save_ok_status hsave⟩

/-- C9 witness: the same store with a pending booking is cancelled
successfully, and with a cancelled booking the call fails. -/
theorem C9_cancel_transitions_witness :
    ((BStatus.pending = BStatus.cancelled →
      exec ⟨[⟨1, 100, 1000, 5000, 0⟩], [⟨0, "BKX", 1, 0, 3600, "hourly", 0, 100, .pending⟩], 1⟩
          (.cancel 0 ⟨2024, 1, 1, 0, 0, 0⟩ [0, 0, 0, 0, 0])
        = .error .alreadyTerminal ∧
      step ⟨[⟨1, 100, 1000, 5000, 0⟩], [⟨0, "BKX", 1, 0, 3600, "hourly", 0, 100, .pending⟩], 1⟩
          (.cancel 0 ⟨2024, 1, 1, 0, 0, 0⟩ [0, 0, 0, 0, 0])
        = ⟨[⟨1, 100, 1000, 5000, 0⟩], [⟨0, "BKX", 1, 0, 3600, "hourly", 0, 100, .pending⟩], 1⟩) ∧
    (¬ BStatus.pending = BStatus.cancelled →
      ∃ b', findBooking (step
          ⟨[⟨1, 100, 1000, 5000, 0⟩], [⟨0, "BKX", 1, 0, 3600, "hourly", 0, 100, .pending⟩], 1⟩
          (.cancel 0 ⟨2024, 1, 1, 0, 0, 0⟩ [0, 0, 0, 0, 0])) 0 = some b' ∧
        b'.status = .cancelled)) :=
  C9_cancel_transitions
    ⟨[⟨1, 100, 1000, 5000, 0⟩], [⟨0, "BKX", 1, 0, 3600, "hourly", 0, 100, .pending⟩], 1⟩
    0 ⟨0, "BKX", 1, 0, 3600, "hourly", 0, 100, .pending⟩ ⟨1, 100, 1000, 5000, 0⟩
    ⟨2024, 1, 1, 0, 0, 0⟩ [0, 0, 0, 0, 0]
    (by decide) (by decide) (by decide) (by decide)

theorem digitChar_isDigit (d : Nat) : (digitChar d).isDigit = true := by
  unfold digitChar
  have h : d % 10 < 10 := Nat.mod_lt _ (by norm_num)
  set m := d % 10 with hm
  interval_cases m <;> decide

/-- C8: the generated booking identifier is the literal BK, the
creation timestamp rendered as fourteen zero padded decimal digits
YYYYMMDDHHMMSS, and five characters drawn from the uppercase letters
and digits; and a booking whose identifier is already set keeps it
unchanged across every further operation on the store, saves
included. -/
theorem C8_booking_id_generation (now : DateTimeUTC) (rand : List (Fin 36))
    (h5 : rand.length = 5) :
    generate_id now rand = "BK" ++ strftimeYmdHMS now ++ randSuffix rand ∧
    (strftimeYmdHMS now).length = 14 ∧
    (∀ c ∈ (strftimeYmdHMS now).data, c.isDigit = true) ∧
    (randSuffix rand).length = 5 ∧
    (∀ c ∈ (randSuffix rand).data, c ∈ idAlphabet) ∧
    (∀ (σ : Store) (op : Op) (bid : Nat) (b : BookingR),
      findBooking σ bid = some b → ¬ b.booking_id = "" →
      ∃ b', findBooking (step σ op) bid = some b' ∧ b'.booking_id = b.booking_id) := by
  refine ⟨rfl, rfl, ?_, ?_, ?_, ?_⟩
  · intro c hc
    simp [strftimeYmdHMS, pad4, pad2] at hc
    rcases hc with rfl | rfl | rfl | rfl | rfl | rfl | rfl | rfl | rfl | rfl | rfl | rfl |
      rfl | rfl <;> exact digitChar_isDigit _
  · show (rand.map idChar).length = 5
    rw [List.length_map]; exact h5
  · intro c hc
    rcases List.mem_map.mp hc with ⟨i, -, rfl⟩
    unfold idChar
    exact List.get_mem idAlphabet _ _
  · intro σ op bid b hf hid
    exact step_keeps_booking_id op hf hid

/-- C8 witness: a concrete timestamp and sampled indices. -/
theorem C8_booking_id_generation_witness :
    generate_id ⟨2024, 3, 7, 15, 4, 59⟩ [0, 25, 26, 35, 9]
      = "BK" ++ strftimeYmdHMS ⟨2024, 3, 7, 15, 4, 59⟩ ++ randSuffix [0, 25, 26, 35, 9] ∧
    (strftimeYmdHMS ⟨2024, 3, 7, 15, 4, 59⟩).length = 14 ∧
    (∀ c ∈ (strftimeYmdHMS ⟨2024, 3, 7, 15, 4, 59⟩).data, c.isDigit = true) ∧
    (randSuffix [0, 25, 26, 35, 9]).length = 5 ∧
    (∀ c ∈ (randSuffix [0, 25, 26, 35, 9]).data, c ∈ idAlphabet) ∧
    (∀ (σ : Store) (op : Op) (bid : Nat) (b : BookingR),
      findBooking σ bid = some b → ¬ b.booking_id = "" →
      ∃ b', findBooking (step σ op) bid = some b' ∧ b'.booking_id = b.booking_id) :=
  C8_booking_id_generation ⟨2024, 3, 7, 15, 4, 59⟩ [0, 25, 26, 35, 9] rfl
